import Mathlib

/-!
Verification development for the GitScribe command-line assistant
(commit-message and PR-description generation via an OpenAI-style
chat-completions service).

The Go sources (`llm.go`, `helper.go`) are shallowly embedded here.
Go strings are byte sequences; all the operations the tool performs on
them (splitting on a byte, slicing, prefix tests, brace scanning) are
byte-wise, so a Go string is modelled as `GoStr := List Char`, a char
standing for one byte/rune of the original - every claim only exercises
the ASCII range, where the two views coincide.  I/O (network calls,
console reads) is modelled by explicit state passing: the network is a
queue of pre-parsed responses plus a log of the message lists sent, and
the console is a list of input lines.
-/

/-- A Go string, viewed as its sequence of characters. -/
abbrev GoStr := List Char

/-- Shorthand turning a Lean string literal into the `GoStr` model. -/
def gs (x : String) : GoStr := x.data

/-- Character-class test of Go `unicode.IsSpace` restricted to the
Latin-1 range (tab, newline, vertical tab, form feed, carriage return,
space, next-line, no-break space); the wider Unicode space classes are
never produced by the tool. Used by `strings.TrimSpace`. -/
def goIsSpace (c : Char) : Bool :=
  c.val = 9 ∨ c.val = 10 ∨ c.val = 11 ∨ c.val = 12 ∨ c.val = 13 ∨
  c.val = 32 ∨ c.val = 133 ∨ c.val = 160

/-- Go `strings.TrimSpace`: drop leading and trailing white space. -/
def trimSpace (s : GoStr) : GoStr :=
  (s.dropWhile goIsSpace).reverse.dropWhile goIsSpace |>.reverse

/-- Go `strings.ToLower`, ASCII letters (the only ones the sentinel
comparison ever meets). -/
def goToLower (s : GoStr) : GoStr :=
  s.map fun c => if 'A' ≤ c ∧ c ≤ 'Z' then Char.ofNat (c.toNat + 32) else c

/-- A question from the LLM together with the user's answer
(`QuestionResponse` in llm.go). -/
structure QuestionResponse where
  Question : GoStr
  Answer : GoStr
deriving DecidableEq, Repr

/-- `askUserQuestions` (llm.go 392-433): present questions in order, read
one console line per question, store its trimmed text as the answer; if
the trimmed answer lowercases to "skip all" or "skipall", blank the
answers of all *later* questions and stop prompting.  The console is
modelled as the list of lines read (a missing line is the EOF read,
which Go's ignored-error path turns into an empty answer). -/
def askUserQuestions (questions : List QuestionResponse) (input : List GoStr) :
    List QuestionResponse :=
  match questions with
  | [] => []
  | q :: rest =>
    let answer := trimSpace (input.headD [])
    let q1 : QuestionResponse := { q with Answer := answer }
    if goToLower answer = gs "skip all" ∨ goToLower answer = gs "skipall" then
      q1 :: rest.map (fun r => { r with Answer := [] })
    else
      q1 :: askUserQuestions rest input.tail

/-- Go `strings.Split` with a one-character separator: `"" ↦ [""]`,
`"a\nb" ↦ ["a","b"]`, `"\n" ↦ ["",""]`. -/
def splitOnChar (sep : Char) : GoStr → List GoStr
  | [] => [[]]
  | c :: rest =>
    if c = sep then [] :: splitOnChar sep rest
    else
      match splitOnChar sep rest with
      | [] => [[c]]
      | l :: ls => (c :: l) :: ls

/-- Go `strings.Join` with a one-character separator. -/
def joinChar (sep : Char) : List GoStr → GoStr
  | [] => []
  | [l] => l
  | l :: ls => l ++ sep :: joinChar sep ls

/-- `trimFirstLine` (helper.go 375-394): when a positive limit is set and
the first line of the message is longer than the limit, cut that line to
exactly the limit and rejoin; a limit of zero or less returns the message
unchanged. -/
def trimFirstLine (message : GoStr) (limit : Int) : GoStr :=
  if limit ≤ 0 then message
  else
    match splitOnChar '\n' message with
    | [] => message
    | l0 :: rest =>
      if limit < (l0.length : Int) then
        joinChar '\n' (l0.take limit.toNat :: rest)
      else
        joinChar '\n' (l0 :: rest)

/-- JSON whitespace (RFC 8259), the class skipped by encoding/json. -/
def jsonWs (c : Char) : Bool := c = ' ' ∨ c = '\t' ∨ c = '\n' ∨ c = '\r'

/-- Skip leading JSON whitespace. -/
def skipWs (s : GoStr) : GoStr := s.dropWhile jsonWs

/-- A JSON value as produced by encoding/json's scanner.  Numeric values
carry no payload: the tool never reads one, only skips them inside
ignored object members. -/
inductive GoJson where
  | str : GoStr → GoJson
  | num : GoJson
  | boolean : Bool → GoJson
  | null : GoJson
  | arr : List GoJson → GoJson
  | obj : List (GoStr × GoJson) → GoJson

/-- Value of a hexadecimal digit. -/
def hexVal (c : Char) : Option Nat :=
  if '0' ≤ c ∧ c ≤ '9' then some (c.toNat - 48)
  else if 'a' ≤ c ∧ c ≤ 'f' then some (c.toNat - 87)
  else if 'A' ≤ c ∧ c ≤ 'F' then some (c.toNat - 55)
  else none

/-- One-character JSON string escapes. -/
def escChar (e : Char) : Option Char :=
  if e = '"' then some '"'
  else if e = '\\' then some '\\'
  else if e = '/' then some '/'
  else if e = 'b' then some (Char.ofNat 8)
  else if e = 'f' then some (Char.ofNat 12)
  else if e = 'n' then some '\n'
  else if e = 'r' then some '\r'
  else if e = 't' then some '\t'
  else none

/-- Body of a JSON string, entered just after the opening quote; returns
the decoded content and the remainder after the closing quote.  Control
characters are rejected and `\u` escapes are decoded as a single code
unit (surrogate pairing is not modelled; no claim exercises it). -/
def parseStringRest : GoStr → Option (GoStr × GoStr)
  | [] => none
  | '"' :: rest => some ([], rest)
  | '\\' :: 'u' :: h1 :: h2 :: h3 :: h4 :: rest3 =>
    match hexVal h1, hexVal h2, hexVal h3, hexVal h4 with
    | some a, some b, some c2, some d =>
      (parseStringRest rest3).map fun p =>
        (Char.ofNat (((a * 16 + b) * 16 + c2) * 16 + d) :: p.1, p.2)
    | _, _, _, _ => none
  | '\\' :: e :: rest2 =>
    match escChar e with
    | none => none
    | some ec => (parseStringRest rest2).map fun p => (ec :: p.1, p.2)
  | ['\\'] => none
  | c :: rest =>
    if c.toNat < 32 then none
    else (parseStringRest rest).map fun p => (c :: p.1, p.2)

/-- Integer part of a JSON number: a single `0`, or a nonzero digit
followed by digits (leading zeros are a syntax error). -/
def parseIntPart : GoStr → Option GoStr
  | [] => none
  | c :: rest =>
    if c = '0' then some rest
    else if '1' ≤ c ∧ c ≤ '9' then some (rest.dropWhile Char.isDigit)
    else none

/-- Optional fraction part of a JSON number. -/
def parseFracPart (s : GoStr) : Option GoStr :=
  match s with
  | '.' :: rest =>
    match rest with
    | c :: _ => if c.isDigit then some (rest.dropWhile Char.isDigit) else none
    | [] => none
  | _ => some s

/-- Optional exponent part of a JSON number. -/
def parseExpPart (s : GoStr) : Option GoStr :=
  match s with
  | c :: rest =>
    if c = 'e' ∨ c = 'E' then
      let rest2 := match rest with
        | s2 :: r2 => if s2 = '+' ∨ s2 = '-' then r2 else rest
        | [] => rest
      match rest2 with
      | d :: _ => if d.isDigit then some (rest2.dropWhile Char.isDigit) else none
      | [] => none
    else some (c :: rest)
  | [] => some []

/-- Validate and skip one JSON number (its value is irrelevant to the
questions struct). -/
def parseNumber (s : GoStr) : Option GoStr :=
  let s1 := match s with | '-' :: r => r | _ => s
  (parseIntPart s1).bind fun r1 => (parseFracPart r1).bind parseExpPart

/-- Parser mode: a whole value, the members of an object after its
opening brace, or the elements of an array after its opening bracket
(with the members/elements decoded so far). -/
inductive PMode where
  | value : PMode
  | members : List (GoStr × GoJson) → PMode
  | elems : List GoJson → PMode

/-- The encoding/json scanner for one JSON value, with object members
and array elements as the recursive modes.  The fuel argument only
bounds the number of nested values and object/array members; the
caller supplies `length + 1`, which always suffices since every value
or member consumes at least one character. -/
def parseF : Nat → PMode → GoStr → Option (GoJson × GoStr)
  | 0, _, _ => none
  | fuel + 1, PMode.value, s =>
    match skipWs s with
    | [] => none
    | c :: r =>
      if c = '"' then (parseStringRest r).map fun p => (GoJson.str p.1, p.2)
      else if c = '\x7b' then
        match skipWs r with
        | [] => parseF fuel (PMode.members []) r
        | c2 :: r2 =>
          if c2 = '\x7d' then some (GoJson.obj [], r2)
          else parseF fuel (PMode.members []) r
      else if c = '[' then
        match skipWs r with
        | [] => parseF fuel (PMode.elems []) r
        | c2 :: r2 =>
          if c2 = ']' then some (GoJson.arr [], r2)
          else parseF fuel (PMode.elems []) r
      else if c = 't' then
        match r with
        | 'r' :: 'u' :: 'e' :: r2 => some (GoJson.boolean true, r2)
        | _ => none
      else if c = 'f' then
        match r with
        | 'a' :: 'l' :: 's' :: 'e' :: r2 => some (GoJson.boolean false, r2)
        | _ => none
      else if c = 'n' then
        match r with
        | 'u' :: 'l' :: 'l' :: r2 => some (GoJson.null, r2)
        | _ => none
      else if c = '-' ∨ c.isDigit then
        (parseNumber (c :: r)).map fun rest => (GoJson.num, rest)
      else none
  | fuel + 1, PMode.members acc, s =>
    match skipWs s with
    | [] => none
    | c :: k =>
      if c = '"' then
        match parseStringRest k with
        | none => none
        | some (key, r1) =>
          match skipWs r1 with
          | [] => none
          | c2 :: r2 =>
            if c2 = ':' then
              match parseF fuel PMode.value r2 with
              | none => none
              | some (v, r3) =>
                match skipWs r3 with
                | [] => none
                | c3 :: r4 =>
                  if c3 = ',' then parseF fuel (PMode.members (acc ++ [(key, v)])) r4
                  else if c3 = '\x7d' then some (GoJson.obj (acc ++ [(key, v)]), r4)
                  else none
            else none
      else none
  | fuel + 1, PMode.elems acc, s =>
    match parseF fuel PMode.value s with
    | none => none
    | some (v, r1) =>
      match skipWs r1 with
      | [] => none
      | c2 :: r2 =>
        if c2 = ',' then parseF fuel (PMode.elems (acc ++ [v])) r2
        else if c2 = ']' then some (GoJson.arr (acc ++ [v]), r2)
        else none

/-- One JSON value. -/
def parseValueF (fuel : Nat) (s : GoStr) : Option (GoJson × GoStr) :=
  parseF fuel PMode.value s

/-- ASCII-case-insensitive key comparison (encoding/json matches struct
field names case-insensitively). -/
def eqFold (a b : GoStr) : Bool := goToLower a = goToLower b

/-- One JSON value assigned to the `Questions []string` field: an array
of strings fills the slice (a null element leaves that entry empty),
`null` leaves the slice nil, anything else is a type error. -/
def decodeStringArray : GoJson → Option (List GoStr)
  | GoJson.null => some []
  | GoJson.arr vs =>
    vs.mapM fun v =>
      match v with
      | GoJson.str st => some st
      | GoJson.null => some []
      | _ => none
  | _ => none

/-- Walk the decoded object members in order: every member whose key
matches `questions` must carry a well-typed value, and the last one
wins (mirroring encoding/json's in-order assignment). `none` is an
Unmarshal error, `some none` means the field never appeared. -/
def collectQuestionsField : List (GoStr × GoJson) → Option (List GoStr) →
    Option (Option (List GoStr))
  | [], cur => some cur
  | (k, v) :: rest, cur =>
    if eqFold k (gs "questions") then
      match decodeStringArray v with
      | none => none
      | some qs => collectQuestionsField rest (some qs)
    else collectQuestionsField rest cur

/-- Modelled behaviour of `json.Unmarshal(data, &questionsObj)` for
`questionsObj : struct { Questions []string }` (called at llm.go 339 and
356): `some qs` when Unmarshal returns no error and leaves the slice
equal to `qs` (`[]` for nil), `none` when it returns an error (type
error, syntax error, or trailing non-whitespace data). -/
def unmarshalQuestions (s : GoStr) : Option (List GoStr) :=
  match parseValueF (s.length + 1) s with
  | some (GoJson.obj fields, rest) =>
    if skipWs rest = [] then
      match collectQuestionsField fields none with
      | none => none
      | some none => some []
      | some (some qs) => some qs
    else none
  | some (GoJson.null, rest) => if skipWs rest = [] then some [] else none
  | _ => none

/-- Character class of `\s` (and of `[\s\n]`) in Go's RE2 syntax: tab,
newline, form feed, carriage return, space. -/
def reWs (c : Char) : Bool :=
  c = '\t' ∨ c = '\n' ∨ c = '\x0c' ∨ c = '\r' ∨ c = ' '

/-- Strip an expected literal prefix, returning the remainder. -/
def stripLiteral : GoStr → GoStr → Option GoStr
  | [], s => some s
  | c :: lrest, s =>
    match s with
    | d :: srest => if d = c then stripLiteral lrest srest else none
    | [] => none

/-- The lazy tail of the questions regex: `.*?` up to a `]` whose
continuation matches the rest of the pattern.  Due to leftmost-first
(lazy) semantics the first such `]` wins; `.` does not match a newline,
so reaching a newline before a viable `]` fails the whole attempt.
Returns the number of characters matched from the position after the
opening bracket, up to and including the closing brace. -/
def lazyCloseScan : GoStr → Nat → Option Nat
  | [], _ => none
  | c :: rest, k =>
    if c = ']' then
      match rest.dropWhile reWs with
      | '\x7d' :: _ => some (k + 1 + (rest.takeWhile reWs).length + 1)
      | _ => lazyCloseScan rest (k + 1)
    else if c = '\n' then none
    else lazyCloseScan rest (k + 1)

/-- Match the regular expression of llm.go 345 (an opening brace,
optional whitespace, the literal `"questions"`, optional whitespace, a
colon, optional whitespace, a bracketed lazy segment, optional
whitespace, a closing brace) at the head of `s`, returning the length of
the match. -/
def matchQuestionsAt (s : GoStr) : Option Nat :=
  match s with
  | '\x7b' :: r1 =>
    let w1 := (r1.takeWhile reWs).length
    let r2 := r1.dropWhile reWs
    match stripLiteral (gs "\"questions\"") r2 with
    | none => none
    | some r3 =>
      let w2 := (r3.takeWhile reWs).length
      let r4 := r3.dropWhile reWs
      match r4 with
      | ':' :: r5 =>
        let w3 := (r5.takeWhile reWs).length
        let r6 := r5.dropWhile reWs
        match r6 with
        | '[' :: r7 =>
          (lazyCloseScan r7 0).map fun n => 1 + w1 + 11 + w2 + 1 + w3 + 1 + n
        | _ => none
      | _ => none
  | _ => none

/-- `regexp.FindString` for the questions pattern: the leftmost match,
`none` when there is none (Go returns the empty string then, which the
caller treats as no match). -/
def findQuestionsMatch : GoStr → Option GoStr
  | [] => none
  | c :: rest =>
    match matchQuestionsAt (c :: rest) with
    | some n => some ((c :: rest).take n)
    | none => findQuestionsMatch rest

/-- `convertToQuestionResponses` (llm.go 371-389): keep at most the
first three questions, pair each with an empty answer. -/
def convertToQuestionResponses (questions : List GoStr) : List QuestionResponse :=
  let questions := if questions.length > 3 then questions.take 3 else questions
  questions.map fun q => { Question := q, Answer := [] }

/-- Fallback branch of `extractQuestions` (llm.go 344-368): find an
embedded questions object by regex, parse just that substring. -/
def extractQuestionsFallback (response : GoStr) : List QuestionResponse × Bool :=
  match findQuestionsMatch response with
  | none => ([], false)
  | some m =>
    match unmarshalQuestions m with
    | none => ([], false)
    | some qs =>
      if qs.length = 0 then ([], false)
      else (convertToQuestionResponses qs, true)

/-- `extractQuestions` (llm.go 332-368): first try to parse the whole
response as the questions object; if that fails or yields an empty
list, scan for an embedded questions object and parse that substring. -/
def extractQuestions (response : GoStr) : List QuestionResponse × Bool :=
  match unmarshalQuestions response with
  | some qs =>
    if 0 < qs.length then (convertToQuestionResponses qs, true)
    else extractQuestionsFallback response
  | none => extractQuestionsFallback response

/-- A message in the OpenAI chat format (`ChatMessage`, llm.go 26-29). -/
structure ChatMessage where
  role : GoStr
  content : GoStr
deriving DecidableEq, Repr

/-- A parsed response from the chat completions API (`ChatResponse`,
llm.go 40-47): each entry of `choices` is the `Message` of the
corresponding choice, and `error` is the optional service-reported
error payload's message. -/
structure ChatResponse where
  choices : List ChatMessage
  error : Option GoStr
deriving DecidableEq, Repr

/-- LLM configuration (`LLMConfig`, llm.go 17-23).  `Temperature` is a
float64 the code never branches on; it is left out of the model. -/
structure LLMConfig where
  APIKey : GoStr
  Model : GoStr
  MaxTokens : Int
  EnableQuestions : Bool
deriving DecidableEq, Repr

/-- Network state: the queue of responses the completion service will
return (already parsed from the wire; an exhausted queue models a
transport/read failure) and the log of message lists sent, in order. -/
structure NetState where
  pending : List ChatResponse
  calls : List (List ChatMessage)
deriving DecidableEq, Repr

/-- Validation of a parsed response (makeOpenAIRequest, llm.go 319-328;
GenerateCommitMessage repeats it inline, llm.go 160-170): a
service-reported error payload fails with its message, an empty choices
list fails with the empty-response error, otherwise the first choice's
content is returned as is (untrimmed). -/
def processChatResponse (r : ChatResponse) : Except GoStr GoStr :=
  match r.error with
  | some msg => Except.error (gs "API error: " ++ msg)
  | none =>
    match r.choices with
    | [] => Except.error (gs "no response from API")
    | m :: _ => Except.ok m.content

/-- `makeOpenAIRequest` (llm.go 280-329): send the messages (appending
them to the call log), read the next queued response and validate it. -/
def makeOpenAIRequest (messages : List ChatMessage) (st : NetState) :
    Except GoStr GoStr × NetState :=
  match st.pending with
  | [] =>
    (Except.error (gs "failed to send request"),
      { pending := [], calls := st.calls ++ [messages] })
  | r :: rest =>
    (processChatResponse r,
      { pending := rest, calls := st.calls ++ [messages] })

/-- The error returned when no API key is configured (llm.go 91/176). -/
def missingKeyError : GoStr :=
  gs "OpenAI API key not found. Set the OPENAI_KEY environment variable"

/-- `getQuestionsPrompt` (llm.go 266-277); the raw literal's leading
indentation is approximated by single tabs. -/
def getQuestionsPrompt (enableQuestions : Bool) : GoStr :=
  if enableQuestions then
    gs "\n\tIf you need additional information to write a more informative PR description, you can ask up to 3 questions.\n\tTo ask questions, respond with a JSON object in the following format:\n\t\x7b\"questions\": [\"question 1\", \"question 2\", \"question 3\"]\x7d\n\t\n\tOnly ask questions if you genuinely need more context to write a better PR description. Don't ask questions in most cases.\n\t"
  else []

/-- Fixed part of the PR system prompt (llm.go 181-186), whitespace of
the raw literal approximated by single tabs. -/
def prPolicyText : GoStr :=
  gs "You are a professional software engineer who has finished a feature branch and is creating a pull request. \n\tYou will be given a list of commit messages from the branch and a PR template. Use the template to generate a \n\tcomprehensive PR description. The PR description should clearly explain the changes, their purpose, and any \n\timportant implementation details.Do not include any other texts about testing, a human who will review \n\tyour PR message will fill that part out. IMPORTANT: You MUST include the ENTIRE template in your response, \n\tincluding ALL sections at the end. "

/-- The PR system prompt (llm.go 180-187): fixed policy, the questions
sub-policy when enabled, then the template. -/
def prSystemPrompt (enableQuestions : Bool) (template : GoStr) : GoStr :=
  prPolicyText ++ getQuestionsPrompt enableQuestions ++
    gs " Use the following template format for your response:\n\t" ++ template

/-- The round-one user message of GeneratePRMessage (llm.go 192). -/
def commitsUserMsg (commits : GoStr) : GoStr :=
  gs "Here are the commit messages from the branch:\n\n" ++ commits

/-- The round-one conversation of GeneratePRMessage (llm.go 190-193),
rebuilt verbatim for round two (llm.go 225-227). -/
def prRoundOneMessages (config : LLMConfig) (template commits : GoStr) :
    List ChatMessage :=
  [ { role := gs "system", content := prSystemPrompt config.EnableQuestions template },
    { role := gs "user", content := commitsUserMsg commits } ]

/-- The assistant turn opening round two (llm.go 228). -/
def needMoreInfoMsg : GoStr :=
  gs "I need some additional information to write a better PR description."

/-- The closing user instruction of round two (llm.go 242-245). -/
def finalInstructionMsg : GoStr :=
  gs "Now that you have this additional information, please generate a comprehensive PR description using the template provided earlier."

/-- Fixed part of the commit-message system prompt (llm.go 95-113),
whitespace of the raw literal approximated by single tabs. -/
def commitPolicyText : GoStr :=
  gs "You are a professional software engineer who has just finished writing code.\n\tYou've staged your changes and are now tasked with writing a commit message. You will be given a git\n\tdiff and a template. Use the git diff to determine what changes have been made in this commit. This is important\n\tfor you to write an accurate and thoughtful commit message. Use the template to generate a commit message. \n\tThe commit message should be concise and informative. You should not use complicated words if there is a simpler \n\talternative. The people reveiwing your commit message are also professional software engineers, \n\tso you can use technical language and do not need to spell out abbreviations such as PR, LLM, FF, etc. \n\tThe template is a markdown file, but don't include the comments in your response.\n\tThe first line of the commit message should be structured as follows:\n\t<subdirectory of the repo> <common directory of the file changes>: <brief title of the changes>\n\tExample: go ingester_worker: Adds implementation for receiving LLM requests\n\tExample: client dashboard_settings: add LLM settings to UI\n\tExample: go gql_api: Defines GraphQL API for auth signin\n\tExample: database/migrations: Adds new migrations for new tables\n\tExample: client map: fixes bug with map view\n\t\n\tDo not include any markdown headers in your response.\n\tThe rest of the commit message should be an informative description of the changes you made.\n\tUse the following template format for your response:\n\t"

/-- The commit-message system prompt (llm.go 95-114). -/
def commitSystemPrompt (template : GoStr) : GoStr :=
  commitPolicyText ++ template

/-- `GenerateCommitMessage` (llm.go 89-171): precondition on the API
key, one request with the system prompt and the diff, result trimmed. -/
def GenerateCommitMessage (diff : GoStr) (config : LLMConfig)
    (template : GoStr) (st : NetState) : Except GoStr GoStr × NetState :=
  if config.APIKey = [] then (Except.error missingKeyError, st)
  else
    let messages : List ChatMessage :=
      [ { role := gs "system", content := commitSystemPrompt template },
        { role := gs "user", content := gs "Here is the git diff:\n\n" ++ diff } ]
    match makeOpenAIRequest messages st with
    | (Except.error e, st1) => (Except.error e, st1)
    | (Except.ok response, st1) => (Except.ok (trimSpace response), st1)

/-- The literal searched for by extractPRDescription (llm.go 452/457):
an opening brace immediately followed by the quoted questions key and a
colon, with no whitespace tolerance. -/
def litQuestionsLead : GoStr := gs "\x7b\"questions\":"

/-- Go `strings.Index` for a fixed pattern: byte index of its first
occurrence. -/
def indexOfLit (pat : GoStr) : GoStr → Option Nat
  | [] => if pat.isPrefixOf ([] : GoStr) then some 0 else none
  | c :: rest =>
    if pat.isPrefixOf (c :: rest) then some 0
    else (indexOfLit pat rest).map (· + 1)

/-- The brace-counting loop of extractPRDescription (llm.go 464-476):
walk from `i`, incrementing on an opening and decrementing on a closing
brace, and return the index of the close that brings the count to
zero. -/
def braceScan : GoStr → Int → Nat → Option Nat
  | [], _, _ => none
  | c :: rest, count, i =>
    let count2 : Int :=
      if c = '\x7b' then count + 1
      else if c = '\x7d' then count - 1 else count
    if c = '\x7d' ∧ count2 = 0 then some i
    else braceScan rest count2 (i + 1)

/-- `extractPRDescription` (llm.go 450-497): empty result when the
trimmed response is empty or itself starts with the questions literal;
the response unchanged when the literal is absent or its closing brace
is never balanced; otherwise the trimmed text before the payload and
the trimmed text after it, joined by a blank line when both are
non-empty. -/
def extractPRDescription (response : GoStr) : GoStr :=
  if trimSpace response = [] ∨ litQuestionsLead.isPrefixOf (trimSpace response) then
    []
  else
    match indexOfLit litQuestionsLead response with
    | none => response
    | some startIdx =>
      match braceScan (response.drop startIdx) 0 startIdx with
      | none => response
      | some endIdx =>
        let beforeQuestions := trimSpace (response.take startIdx)
        let afterQuestions := trimSpace (response.drop (endIdx + 1))
        if beforeQuestions ≠ [] ∧ afterQuestions ≠ [] then
          beforeQuestions ++ gs "\n\n" ++ afterQuestions
        else if beforeQuestions ≠ [] then beforeQuestions
        else if afterQuestions ≠ [] then afterQuestions
        else []

/-- `GeneratePRMessage` (llm.go 174-263): precondition on the API key;
round one with the PR prompt and the commit log; question detection on
the draft; when questions are detected and enabled, console interaction,
then either a context-carrying round two (when at least one answer is
non-empty) whose trimmed output is final, or no second call and the
trimmed stripped draft.  Without detected-and-enabled questions the
trimmed draft itself is final. -/
def GeneratePRMessage (commits : GoStr) (config : LLMConfig) (template : GoStr)
    (st : NetState) (input : List GoStr) : Except GoStr GoStr × NetState :=
  if config.APIKey = [] then (Except.error missingKeyError, st)
  else
    match makeOpenAIRequest (prRoundOneMessages config template commits) st with
    | (Except.error e, st1) => (Except.error e, st1)
    | (Except.ok response, st1) =>
      let qh := extractQuestions response
      if qh.2 && config.EnableQuestions then
        let questionResponses := askUserQuestions qh.1 input
        let anyAnswered := questionResponses.any fun q => !q.Answer.isEmpty
        if anyAnswered then
          let newMessages :=
            (questionResponses.foldl
              (fun acc qa =>
                if qa.Answer ≠ [] then
                  acc ++ [ { role := gs "assistant", content := qa.Question },
                           { role := gs "user", content := qa.Answer } ]
                else acc)
              (prRoundOneMessages config template commits ++
                [ { role := gs "assistant", content := needMoreInfoMsg } ]))
            ++ [ { role := gs "user", content := finalInstructionMsg } ]
          match makeOpenAIRequest newMessages st1 with
          | (Except.error e, st2) => (Except.error e, st2)
          | (Except.ok r2, st2) => (Except.ok (trimSpace r2), st2)
        else
          (Except.ok (trimSpace (extractPRDescription response)), st1)
      else
        (Except.ok (trimSpace response), st1)

/-- Tool configuration (`Config`, helper.go 14-19). -/
structure Config where
  CommitTemplate : GoStr
  PRTemplate : GoStr
  LLM : LLMConfig
  FirstLineLimit : Int
deriving DecidableEq, Repr

/-- The default-filling steps of `loadConfig` (helper.go 56-85) on the
parsed configuration, with the environment's OPENAI_KEY supplied as a
parameter (file reading and path expansion are I/O outside the model;
the float64 Temperature default is not modelled).  A `first_line_limit`
absent from the JSON file parses to the zero value 0. -/
def applyConfigDefaults (config : Config) (envKey : GoStr) : Config :=
  let config :=
    if config.LLM.Model = [] then { config with LLM.Model := gs "gpt-4" } else config
  let config :=
    if config.LLM.MaxTokens = 0 then { config with LLM.MaxTokens := 1000 } else config
  let config :=
    if config.LLM.APIKey = [] then { config with LLM.APIKey := envKey } else config
  if config.FirstLineLimit = 0 then { config with FirstLineLimit := 72 } else config

/-- `createCommitMessage` (helper.go 106-135), the template file read
modelled as an `Except` parameter: empty diff is a precondition error
(before the template read and before any network call), then the LLM
result gets the first-line limit applied when positive. -/
def createCommitMessage (diff : GoStr) (templateRead : Except GoStr GoStr)
    (llmConfig : LLMConfig) (firstLineLimit : Int) (st : NetState) :
    Except GoStr GoStr × NetState :=
  if diff = [] then
    (Except.error (gs "no changes staged. Please stage changes before committing."), st)
  else
    match templateRead with
    | Except.error e => (Except.error (gs "failed to read commit template: " ++ e), st)
    | Except.ok template =>
      match GenerateCommitMessage diff llmConfig template st with
      | (Except.error e, st1) => (Except.error (gs "LLM generation failed: " ++ e), st1)
      | (Except.ok message, st1) =>
        let message :=
          if 0 < firstLineLimit then trimFirstLine message firstLineLimit else message
        (Except.ok message, st1)

/-- `createPRMessage` (helper.go 219-248), analogous to
`createCommitMessage` with the commit log precondition. -/
def createPRMessage (commits : GoStr) (templateRead : Except GoStr GoStr)
    (llmConfig : LLMConfig) (firstLineLimit : Int) (st : NetState)
    (input : List GoStr) : Except GoStr GoStr × NetState :=
  if commits = [] then
    (Except.error (gs "no commits found between branches. Please make some commits first."), st)
  else
    match templateRead with
    | Except.error e => (Except.error (gs "failed to read PR template: " ++ e), st)
    | Except.ok template =>
      match GeneratePRMessage commits llmConfig template st input with
      | (Except.error e, st1) => (Except.error (gs "LLM generation failed: " ++ e), st1)
      | (Except.ok message, st1) =>
        let message :=
          if 0 < firstLineLimit then trimFirstLine message firstLineLimit else message
        (Except.ok message, st1)

deriving instance DecidableEq for Except

/-- The claim's concatenation rule for the prose around a stripped
payload: both sides joined by a blank line when both are non-empty,
otherwise the non-empty side, otherwise empty (spec section 4.3 step
6). -/
def joinStripped (before after : GoStr) : GoStr :=
  if before ≠ [] ∧ after ≠ [] then before ++ gs "\n\n" ++ after
  else if before ≠ [] then before
  else if after ≠ [] then after
  else []

/-- The exact questions payload of the round-trip claim. -/
def payloadAB : GoStr := gs "\x7b\"questions\":[\"A\",\"B\"]\x7d"

/-- Claim C10: the human-interaction step only ever writes `Answer`
fields: the output has the same length as the input and identical
`Question` fields in the same order. -/
theorem askUserQuestions_preserves_questions
    (questions : List QuestionResponse) (input : List GoStr) :
    (askUserQuestions questions input).length = questions.length ∧
    (askUserQuestions questions input).map QuestionResponse.Question =
      questions.map QuestionResponse.Question := by
  induction questions generalizing input with
  | nil => simp [askUserQuestions]
  | cons q rest ih =>
    unfold askUserQuestions
    dsimp only
    split
    · refine ⟨by simp, ?_⟩
      simp [List.map_map, Function.comp]
    · obtain ⟨h1, h2⟩ := ih input.tail
      exact ⟨by simp [h1], by simp [h2]⟩

theorem splitOnChar_ne_nil (sep : Char) (s : GoStr) : splitOnChar sep s ≠ [] := by
  induction s with
  | nil => simp [splitOnChar]
  | cons c rest ih =>
    unfold splitOnChar
    by_cases hc : c = sep
    · simp [hc]
    · simp only [hc, if_false]
      cases h : splitOnChar sep rest with
      | nil => simp
      | cons l ls => simp

theorem splitOnChar_pieces (sep : Char) (s : GoStr) :
    ∀ p ∈ splitOnChar sep s, sep ∉ p := by
  induction s with
  | nil => simp [splitOnChar]
  | cons c rest ih =>
    unfold splitOnChar
    by_cases hc : c = sep
    · simpa [hc] using ih
    · simp only [hc, if_false]
      cases h : splitOnChar sep rest with
      | nil =>
        intro p hp
        simp at hp
        simp [hp, Ne.symm hc]
      | cons l ls =>
        intro p hp
        simp at hp
        rcases hp with hp | hp
        · subst hp
          have hl := ih l (h ▸ List.mem_cons_self l ls)
          simp [Ne.symm hc, hl]
        · exact ih p (h ▸ List.mem_cons_of_mem l hp)

theorem splitOnChar_of_no_sep (sep : Char) (l : GoStr) (h : sep ∉ l) :
    splitOnChar sep l = [l] := by
  induction l with
  | nil => simp [splitOnChar]
  | cons c rest ih =>
    simp at h
    unfold splitOnChar
    rw [if_neg (Ne.symm h.1), ih h.2]

theorem splitOnChar_append_sep (sep : Char) (l t : GoStr) (h : sep ∉ l) :
    splitOnChar sep (l ++ sep :: t) = l :: splitOnChar sep t := by
  induction l with
  | nil => simp [splitOnChar]
  | cons c rest ih =>
    simp at h
    have hrec := ih h.2
    show splitOnChar sep (c :: (rest ++ sep :: t)) = _
    conv_lhs => unfold splitOnChar
    rw [if_neg (Ne.symm h.1), hrec]

theorem splitOnChar_joinChar (sep : Char) (ls : List GoStr) (hne : ls ≠ [])
    (h : ∀ p ∈ ls, sep ∉ p) :
    splitOnChar sep (joinChar sep ls) = ls := by
  induction ls with
  | nil => exact absurd rfl hne
  | cons l rest ih =>
    cases rest with
    | nil =>
      simp [joinChar]
      exact splitOnChar_of_no_sep sep l (h l (List.mem_cons_self l []))
    | cons l2 ls2 =>
      show splitOnChar sep (l ++ sep :: joinChar sep (l2 :: ls2)) = _
      rw [splitOnChar_append_sep sep l _ (h l (List.mem_cons_self l _))]
      rw [ih (by simp) (fun p hp => h p (List.mem_cons_of_mem l hp))]

/-- Claim C7: for a multi-line message whose first line exceeds a
positive limit, truncation shortens only the first line, to exactly the
limit, leaving all later lines and line boundaries unchanged; a limit of
zero or less returns the message unchanged. -/
theorem trimFirstLine_spec :
    (∀ (message : GoStr) (limit : Int) (l0 : GoStr) (rest : List GoStr),
      splitOnChar '\n' message = l0 :: rest →
      rest ≠ [] →
      0 < limit →
      limit < (l0.length : Int) →
      splitOnChar '\n' (trimFirstLine message limit) = l0.take limit.toNat :: rest ∧
      (l0.take limit.toNat).length = limit.toNat) ∧
    (∀ (message : GoStr) (limit : Int), limit ≤ 0 →
      trimFirstLine message limit = message) := by
  constructor
  · intro message limit l0 rest hsplit hne hpos hlen
    have hpieces := splitOnChar_pieces '\n' message
    rw [hsplit] at hpieces
    have htake : (l0.take limit.toNat).length = limit.toNat := by
      simp only [List.length_take]
      omega
    refine ⟨?_, htake⟩
    unfold trimFirstLine
    rw [if_neg (by omega), hsplit]
    dsimp only
    rw [if_pos hlen]
    apply splitOnChar_joinChar
    · simp
    · intro p hp
      rcases List.mem_cons.mp hp with hp | hp
      · subst hp
        intro hmem
        exact hpieces l0 (List.mem_cons_self l0 rest)
          (List.take_subset _ _ hmem)
      · exact hpieces p (List.mem_cons_of_mem l0 hp)
  · intro message limit h
    unfold trimFirstLine
    rw [if_pos h]

/-- Claim C7 witness: truncating "abcdef\nxyz" at limit 3 yields lines
"abc" and "xyz", with the first line exactly 3 long; limit -1 is a
no-op. -/
theorem trimFirstLine_spec_witness :
    (splitOnChar '\n' (trimFirstLine (gs "abcdef\nxyz") 3) =
        (gs "abcdef").take ((3 : Int)).toNat :: [gs "xyz"] ∧
      ((gs "abcdef").take ((3 : Int)).toNat).length = ((3 : Int)).toNat) ∧
    trimFirstLine (gs "hi") (-1) = gs "hi" :=
  ⟨trimFirstLine_spec.1 (gs "abcdef\nxyz") 3 (gs "abcdef") [gs "xyz"]
      (by decide) (by decide) (by decide) (by decide),
    trimFirstLine_spec.2 (gs "hi") (-1) (by decide)⟩

/-- Claim C5: a question payload with more than 3 questions is capped to
exactly the first three, in order; the rest are silently discarded (the
conversion is total, no error path exists). -/
theorem convertToQuestionResponses_caps (questions : List GoStr)
    (h : questions.length > 3) :
    convertToQuestionResponses questions =
      (questions.take 3).map fun q => { Question := q, Answer := [] } := by
  unfold convertToQuestionResponses
  rw [if_pos h]

/-- Claim C5 witness: five questions are capped to the first three. -/
theorem convertToQuestionResponses_caps_witness :
    ([gs "q1", gs "q2", gs "q3", gs "q4", gs "q5"] : List GoStr).length > 3 ∧
    convertToQuestionResponses [gs "q1", gs "q2", gs "q3", gs "q4", gs "q5"] =
      (([gs "q1", gs "q2", gs "q3", gs "q4", gs "q5"] : List GoStr).take 3).map
        (fun q => { Question := q, Answer := [] }) :=
  ⟨by decide, convertToQuestionResponses_caps _ (by decide)⟩

/-- The answered-question message pairs appended in round two: the
fold over all question responses appends one assistant/user pair per
non-empty answer, which is the concatenation over the answered
sublist in order. -/
theorem foldl_answered_pairs (l : List QuestionResponse) (init : List ChatMessage) :
    l.foldl
      (fun acc qa =>
        if qa.Answer ≠ [] then
          acc ++ [ { role := gs "assistant", content := qa.Question },
                   { role := gs "user", content := qa.Answer } ]
        else acc) init =
    init ++ (l.filter fun q => !q.Answer.isEmpty).flatMap
      (fun qa => [ ({ role := gs "assistant", content := qa.Question } : ChatMessage),
                   { role := gs "user", content := qa.Answer } ]) := by
  induction l generalizing init with
  | nil => simp
  | cons q rest ih =>
    rw [List.foldl_cons]
    by_cases h : q.Answer = []
    · rw [if_neg (by simp [h]), ih]
      congr 1
      simp [List.filter_cons, List.isEmpty_iff, h]
    · rw [if_pos h, ih]
      simp [List.filter_cons, List.isEmpty_iff, h, List.append_assoc]

/-- Claim C6: an empty diff (commit-message path) and an empty commit
log (PR path) fail with the precondition error; the network state is
returned untouched, so the completion client receives zero
invocations. -/
theorem empty_input_precondition_no_network :
    (∀ (templateRead : Except GoStr GoStr) (llmConfig : LLMConfig)
        (firstLineLimit : Int) (st : NetState),
      createCommitMessage [] templateRead llmConfig firstLineLimit st =
        (Except.error (gs "no changes staged. Please stage changes before committing."),
          st)) ∧
    (∀ (templateRead : Except GoStr GoStr) (llmConfig : LLMConfig)
        (firstLineLimit : Int) (st : NetState) (input : List GoStr),
      createPRMessage [] templateRead llmConfig firstLineLimit st input =
        (Except.error (gs "no commits found between branches. Please make some commits first."),
          st)) := by
  constructor
  · intro templateRead llmConfig firstLineLimit st
    rfl
  · intro templateRead llmConfig firstLineLimit st input
    rfl

/-- Claim C8: the completion request path: a missing credential fails
with the key error before any network activity (state untouched); a
service-reported error payload fails surfacing the payload's message; a
clean parse with zero candidates fails with the empty-response error;
on success the shared request primitive returns the first candidate's
content without trimming it. -/
theorem completion_client_contract :
    (∀ (commits : GoStr) (config : LLMConfig) (template : GoStr)
        (st : NetState) (input : List GoStr),
      config.APIKey = [] →
      GeneratePRMessage commits config template st input =
        (Except.error missingKeyError, st)) ∧
    (∀ (r : ChatResponse) (e : GoStr),
      r.error = some e →
      processChatResponse r = Except.error (gs "API error: " ++ e)) ∧
    (∀ r : ChatResponse,
      r.error = none → r.choices = [] →
      processChatResponse r = Except.error (gs "no response from API")) ∧
    (∀ (r : ChatResponse) (m : ChatMessage) (ms : List ChatMessage),
      r.error = none → r.choices = m :: ms →
      processChatResponse r = Except.ok m.content) := by
  refine ⟨?_, ?_, ?_, ?_⟩
  · intro commits config template st input h
    unfold GeneratePRMessage
    rw [if_pos h]
  · intro r e h
    unfold processChatResponse
    rw [h]
  · intro r h hc
    unfold processChatResponse
    rw [h, hc]
  · intro r m ms h hc
    unfold processChatResponse
    rw [h, hc]

/-- Claim C8 witness: each contract case at a concrete input. -/
theorem completion_client_contract_witness :
    GeneratePRMessage (gs "c")
        { APIKey := [], Model := gs "gpt-4", MaxTokens := 1000, EnableQuestions := false }
        (gs "T") { pending := [], calls := [] } [] =
      (Except.error missingKeyError, { pending := [], calls := [] }) ∧
    processChatResponse { choices := [], error := some (gs "boom") } =
      Except.error (gs "API error: " ++ gs "boom") ∧
    processChatResponse { choices := [], error := none } =
      Except.error (gs "no response from API") ∧
    processChatResponse
        { choices := [{ role := gs "assistant", content := gs "  out  " }], error := none } =
      Except.ok (gs "  out  ") :=
  ⟨completion_client_contract.1 (gs "c") _ (gs "T") _ [] rfl,
    completion_client_contract.2.1 _ (gs "boom") rfl,
    completion_client_contract.2.2.1 _ rfl rfl,
    completion_client_contract.2.2.2 _ _ [] rfl rfl⟩

/-- The defaulting pass leaves every limit except 0 alone and turns 0
into 72 (the other three defaults touch only the LLM fields). -/
theorem applyConfigDefaults_firstLineLimit (c : Config) (k : GoStr) :
    (applyConfigDefaults c k).FirstLineLimit =
      if c.FirstLineLimit = 0 then 72 else c.FirstLineLimit := by
  unfold applyConfigDefaults
  dsimp only
  split <;> split <;> split <;> split <;> simp_all

/-- Claim C9: a configured first-line limit of 0 (the parse result of an
absent field) is defaulted to 72; after defaulting, the limit is
non-positive exactly when a negative limit was configured (so 0 can
never disable truncation); and with the defaulted limit 72 both message
paths apply first-line truncation at 72 to a successful generation. -/
theorem firstLineLimit_default_72 :
    (∀ (config : Config) (envKey : GoStr),
      config.FirstLineLimit = 0 →
      (applyConfigDefaults config envKey).FirstLineLimit = 72) ∧
    (∀ (config : Config) (envKey : GoStr),
      (applyConfigDefaults config envKey).FirstLineLimit ≤ 0 ↔
        config.FirstLineLimit < 0) ∧
    (∀ (diff template : GoStr) (llmConfig : LLMConfig) (st st1 : NetState)
        (message : GoStr),
      diff ≠ [] →
      GenerateCommitMessage diff llmConfig template st = (Except.ok message, st1) →
      createCommitMessage diff (Except.ok template) llmConfig 72 st =
        (Except.ok (trimFirstLine message 72), st1)) ∧
    (∀ (commits template : GoStr) (llmConfig : LLMConfig) (st st1 : NetState)
        (message : GoStr) (input : List GoStr),
      commits ≠ [] →
      GeneratePRMessage commits llmConfig template st input = (Except.ok message, st1) →
      createPRMessage commits (Except.ok template) llmConfig 72 st input =
        (Except.ok (trimFirstLine message 72), st1)) := by
  refine ⟨?_, ?_, ?_, ?_⟩
  · intro config envKey h
    rw [applyConfigDefaults_firstLineLimit, if_pos h]
  · intro config envKey
    rw [applyConfigDefaults_firstLineLimit]
    split <;> omega
  · intro diff template llmConfig st st1 message hdiff hgen
    unfold createCommitMessage
    rw [if_neg hdiff]
    dsimp only
    rw [hgen]
    dsimp only
    rw [if_pos (by norm_num)]
  · intro commits template llmConfig st st1 message input hcommits hgen
    unfold createPRMessage
    rw [if_neg hcommits]
    dsimp only
    rw [hgen]
    dsimp only
    rw [if_pos (by norm_num)]

set_option maxRecDepth 2000 in
/-- Claim C9 witness: a zero-limit configuration is defaulted to 72 and
the commit path truncates a long first line at 72. -/
theorem firstLineLimit_default_72_witness :
    (applyConfigDefaults
        { CommitTemplate := [], PRTemplate := [],
          LLM := { APIKey := gs "k", Model := [], MaxTokens := 0, EnableQuestions := false },
          FirstLineLimit := 0 } (gs "env")).FirstLineLimit = 72 ∧
    createCommitMessage (gs "d") (Except.ok (gs "T"))
        { APIKey := gs "k", Model := gs "gpt-4", MaxTokens := 1000, EnableQuestions := false }
        72
        { pending := [{ choices := [{ role := gs "assistant", content := gs "m" }],
                        error := none }],
          calls := [] } =
      (Except.ok (trimFirstLine (gs "m") 72),
        { pending := [],
          calls := [[ { role := gs "system", content := commitSystemPrompt (gs "T") },
                      { role := gs "user", content := gs "Here is the git diff:\n\n" ++ gs "d" } ]] }) :=
  ⟨firstLineLimit_default_72.1 _ (gs "env") rfl,
    firstLineLimit_default_72.2.2.1 (gs "d") (gs "T")
      { APIKey := gs "k", Model := gs "gpt-4", MaxTokens := 1000, EnableQuestions := false }
      { pending := [{ choices := [{ role := gs "assistant", content := gs "m" }],
                      error := none }],
        calls := [] }
      { pending := [],
        calls := [[ { role := gs "system", content := commitSystemPrompt (gs "T") },
                    { role := gs "user", content := gs "Here is the git diff:\n\n" ++ gs "d" } ]] }
      (gs "m") (by decide) rfl⟩

/-- Claim C1 (counterexample): for the round-one draft
`\x7b"questions":["A"]\x7d trailing` questions are detected and enabled
and zero end up answered (first two conjuncts), and only one completion
call is made; but the outcome is the empty string, not the surrounding
prose "trailing" that the claim's remove-and-join formula demands: the
trimmed draft begins with the literal questions lead, so
extractPRDescription (llm.go 452-453) discards the trailing prose. -/
theorem generatePRMessage_zero_answered_counterexample :
    extractQuestions (gs "\x7b\"questions\":[\"A\"]\x7d trailing") =
      ([⟨gs "A", []⟩], true) ∧
    askUserQuestions [⟨gs "A", []⟩] [] = [⟨gs "A", []⟩] ∧
    (GeneratePRMessage (gs "c")
        { APIKey := gs "k", Model := gs "gpt-4", MaxTokens := 1000, EnableQuestions := true }
        (gs "T")
        { pending := [{ choices := [{ role := gs "assistant",
                                      content := gs "\x7b\"questions\":[\"A\"]\x7d trailing" }],
                        error := none }],
          calls := [] } []).1 = Except.ok [] ∧
    (GeneratePRMessage (gs "c")
        { APIKey := gs "k", Model := gs "gpt-4", MaxTokens := 1000, EnableQuestions := true }
        (gs "T")
        { pending := [{ choices := [{ role := gs "assistant",
                                      content := gs "\x7b\"questions\":[\"A\"]\x7d trailing" }],
                        error := none }],
          calls := [] } []).1 ≠ Except.ok (gs "trailing") ∧
    (GeneratePRMessage (gs "c")
        { APIKey := gs "k", Model := gs "gpt-4", MaxTokens := 1000, EnableQuestions := true }
        (gs "T")
        { pending := [{ choices := [{ role := gs "assistant",
                                      content := gs "\x7b\"questions\":[\"A\"]\x7d trailing" }],
                        error := none }],
          calls := [] } []).2.calls.length = 1 :=
  ⟨by decide, by decide, by decide, by decide, by decide⟩

/-- Claim C1 (amended): when round one detects questions (enabled) and,
after human interaction, zero have a non-empty answer, no second
completion call is made (only the round-one call is logged) and the
outcome is the draft with the question payload removed and the
surrounding prose joined (blank-line join of the trimmed sides),
whitespace-trimmed -- provided the trimmed draft is non-empty, does not
itself begin with the literal lead `\x7b"questions":` (then the outcome
is empty), and contains that literal with a brace-balanced close (the
stripping searches for the exact literal, not the whitespace-tolerant
detection pattern; otherwise the outcome is the trimmed draft
unchanged). -/
theorem generatePRMessage_zero_answered_amended
    (commits template : GoStr) (config : LLMConfig) (r1 : ChatResponse)
    (rest : List ChatResponse) (calls0 : List (List ChatMessage))
    (input : List GoStr) (draft : GoStr) (qs : List QuestionResponse)
    (startIdx endIdx : Nat)
    (hkey : config.APIKey ≠ [])
    (hr1 : processChatResponse r1 = Except.ok draft)
    (hq : extractQuestions draft = (qs, true))
    (hen : config.EnableQuestions = true)
    (hans : ∀ q ∈ askUserQuestions qs input, q.Answer = [])
    (hne : trimSpace draft ≠ [])
    (hpre : ¬ litQuestionsLead.isPrefixOf (trimSpace draft))
    (hidx : indexOfLit litQuestionsLead draft = some startIdx)
    (hbr : braceScan (draft.drop startIdx) 0 startIdx = some endIdx) :
    GeneratePRMessage commits config template
        { pending := r1 :: rest, calls := calls0 } input =
      (Except.ok (trimSpace
          (joinStripped (trimSpace (draft.take startIdx))
            (trimSpace (draft.drop (endIdx + 1))))),
        { pending := rest,
          calls := calls0 ++ [prRoundOneMessages config template commits] }) := by
  have hany : ((askUserQuestions qs input).any fun q => !q.Answer.isEmpty) = false := by
    rw [List.any_eq_false]
    intro q hmem
    simp [hans q hmem]
  have hstrip : extractPRDescription draft =
      joinStripped (trimSpace (draft.take startIdx))
        (trimSpace (draft.drop (endIdx + 1))) := by
    unfold extractPRDescription
    rw [if_neg (not_or.mpr ⟨hne, hpre⟩), hidx]
    dsimp only
    rw [hbr]
    dsimp only
    rfl
  unfold GeneratePRMessage makeOpenAIRequest
  rw [if_neg hkey]
  simp only [hr1, hq, hen, hany, hstrip, Bool.and_self, if_true, Bool.false_eq_true,
    if_false]

/-- Claim C1 witness: draft `intro \x7b"questions":["A"]\x7d outro`,
one detected question, no console input (so the answer is empty): one
call, outcome `intro` and `outro` joined by a blank line. -/
theorem generatePRMessage_zero_answered_amended_witness :
    GeneratePRMessage (gs "c")
        { APIKey := gs "k", Model := gs "gpt-4", MaxTokens := 1000, EnableQuestions := true }
        (gs "T")
        { pending := [{ choices := [{ role := gs "assistant",
                                      content := gs "intro \x7b\"questions\":[\"A\"]\x7d outro" }],
                        error := none }],
          calls := [] } [] =
      (Except.ok (trimSpace
          (joinStripped (trimSpace ((gs "intro \x7b\"questions\":[\"A\"]\x7d outro").take 6))
            (trimSpace ((gs "intro \x7b\"questions\":[\"A\"]\x7d outro").drop 25)))),
        { pending := [],
          calls := [] ++
            [prRoundOneMessages
              { APIKey := gs "k", Model := gs "gpt-4", MaxTokens := 1000, EnableQuestions := true }
              (gs "T") (gs "c")] }) :=
  generatePRMessage_zero_answered_amended (gs "c") (gs "T")
    { APIKey := gs "k", Model := gs "gpt-4", MaxTokens := 1000, EnableQuestions := true }
    { choices := [{ role := gs "assistant",
                    content := gs "intro \x7b\"questions\":[\"A\"]\x7d outro" }],
      error := none }
    [] [] [] (gs "intro \x7b\"questions\":[\"A\"]\x7d outro") [⟨gs "A", []⟩] 6 24
    (by decide) rfl (by decide) rfl (by decide) (by decide) (by decide)
    (by decide) (by decide)

/-- Claim C2: when round one detects questions (enabled) and at least
one ends with a non-empty answer, exactly one additional completion
call is made; its message list reuses the round-one system and user
messages, then the assistant turn asking for more information, then one
assistant/user pair per answered question in order (unanswered ones
omitted), then the final user instruction; and the trimmed output of
that second call is the outcome, with no further question-detection
pass (the conclusion holds for every second-round output). -/
theorem generatePRMessage_round_two
    (commits template : GoStr) (config : LLMConfig) (r1 r2 : ChatResponse)
    (rest : List ChatResponse) (calls0 : List (List ChatMessage))
    (input : List GoStr) (draft out2 : GoStr) (qs : List QuestionResponse)
    (hkey : config.APIKey ≠ [])
    (hr1 : processChatResponse r1 = Except.ok draft)
    (hq : extractQuestions draft = (qs, true))
    (hen : config.EnableQuestions = true)
    (hans : ((askUserQuestions qs input).any fun q => !q.Answer.isEmpty) = true)
    (hr2 : processChatResponse r2 = Except.ok out2) :
    GeneratePRMessage commits config template
        { pending := r1 :: r2 :: rest, calls := calls0 } input =
      (Except.ok (trimSpace out2),
        { pending := rest,
          calls := calls0 ++
            [ prRoundOneMessages config template commits,
              prRoundOneMessages config template commits ++
                [ { role := gs "assistant", content := needMoreInfoMsg } ] ++
                ((askUserQuestions qs input).filter fun q => !q.Answer.isEmpty).flatMap
                  (fun qa =>
                    [ ({ role := gs "assistant", content := qa.Question } : ChatMessage),
                      { role := gs "user", content := qa.Answer } ]) ++
                [ { role := gs "user", content := finalInstructionMsg } ] ] }) := by
  unfold GeneratePRMessage makeOpenAIRequest
  rw [if_neg hkey]
  simp only [hr1, hq, hen, hans, hr2, foldl_answered_pairs, Bool.and_self, if_true]
  simp [List.append_assoc]

set_option maxRecDepth 4000 in
/-- Claim C2 witness: two detected questions, the first skipped and the
second answered "ans2"; the second call carries exactly one
assistant/user pair (for question 2) and its trimmed output "FINAL" is
the outcome. -/
theorem generatePRMessage_round_two_witness :
    GeneratePRMessage (gs "c")
        { APIKey := gs "k", Model := gs "gpt-4", MaxTokens := 1000, EnableQuestions := true }
        (gs "T")
        { pending :=
            [ { choices := [{ role := gs "assistant",
                              content := gs "\x7b\"questions\":[\"Q1\",\"Q2\"]\x7d" }],
                error := none },
              { choices := [{ role := gs "assistant", content := gs "  FINAL " }],
                error := none } ],
          calls := [] } [gs "", gs "ans2"] =
      (Except.ok (trimSpace (gs "  FINAL ")),
        { pending := [],
          calls := [] ++
            [ prRoundOneMessages
                { APIKey := gs "k", Model := gs "gpt-4", MaxTokens := 1000, EnableQuestions := true }
                (gs "T") (gs "c"),
              prRoundOneMessages
                { APIKey := gs "k", Model := gs "gpt-4", MaxTokens := 1000, EnableQuestions := true }
                (gs "T") (gs "c") ++
                [ { role := gs "assistant", content := needMoreInfoMsg } ] ++
                ((askUserQuestions [⟨gs "Q1", []⟩, ⟨gs "Q2", []⟩]
                    [gs "", gs "ans2"]).filter fun q => !q.Answer.isEmpty).flatMap
                  (fun qa =>
                    [ ({ role := gs "assistant", content := qa.Question } : ChatMessage),
                      { role := gs "user", content := qa.Answer } ]) ++
                [ { role := gs "user", content := finalInstructionMsg } ] ] }) :=
  generatePRMessage_round_two (gs "c") (gs "T")
    { APIKey := gs "k", Model := gs "gpt-4", MaxTokens := 1000, EnableQuestions := true }
    { choices := [{ role := gs "assistant",
                    content := gs "\x7b\"questions\":[\"Q1\",\"Q2\"]\x7d" }],
      error := none }
    { choices := [{ role := gs "assistant", content := gs "  FINAL " }], error := none }
    [] [] [gs "", gs "ans2"] (gs "\x7b\"questions\":[\"Q1\",\"Q2\"]\x7d") (gs "  FINAL ")
    [⟨gs "Q1", []⟩, ⟨gs "Q2", []⟩]
    (by decide) rfl (by decide) rfl (by decide) rfl

/-- Claim C3 (failing input): with three questions and console lines
"first answer" then "Skip All", the sentinel halts prompting and blanks
question 3, but question 2 itself *keeps the sentinel text as its
answer*: its answer is "Skip All", not empty (and it therefore counts as
answered downstream). -/
theorem askUserQuestions_skip_all_failing_input :
    askUserQuestions
      [⟨gs "Q1", []⟩, ⟨gs "Q2", []⟩, ⟨gs "Q3", []⟩]
      [gs "first answer", gs "Skip All"] =
      [⟨gs "Q1", gs "first answer"⟩, ⟨gs "Q2", gs "Skip All"⟩, ⟨gs "Q3", []⟩] ∧
    (gs "Skip All" : GoStr) ≠ [] := by
  constructor
  · decide
  · decide

theorem skipWs_append_allWs (xs ys : GoStr) (h : ∀ c ∈ xs, jsonWs c = true) :
    skipWs (xs ++ ys) = skipWs ys := by
  unfold skipWs
  rw [List.dropWhile_append]
  have hnil : List.dropWhile jsonWs xs = [] := List.dropWhile_eq_nil_iff.mpr h
  simp [hnil]

theorem skipWs_cons_nonws (c : Char) (r : GoStr) (h : jsonWs c = false) :
    skipWs (c :: r) = c :: r := by
  unfold skipWs
  rw [List.dropWhile_cons, if_neg (by simp [h])]

theorem skipWs_append_of_ne (b x : GoStr) (hne : skipWs b ≠ []) :
    skipWs (b ++ x) = skipWs b ++ x := by
  unfold skipWs at hne ⊢
  rw [List.dropWhile_append, if_neg (by simp [List.isEmpty_iff, hne])]

theorem skipWs_decomp (b : GoStr) (c : Char) (t : GoStr) (h : skipWs b = c :: t) :
    jsonWs c = false ∧ c ∈ b := by
  induction b with
  | nil => simp [skipWs] at h
  | cons x xs ih =>
    rw [skipWs, List.dropWhile_cons] at h
    by_cases hx : jsonWs x = true
    · rw [if_pos hx] at h
      have h2 := ih (by rw [skipWs]; exact h)
      exact ⟨h2.1, List.mem_cons_of_mem _ h2.2⟩
    · rw [if_neg hx] at h
      injection h with h1 h2
      subst h1
      exact ⟨by simpa using hx, List.mem_cons_self _ _⟩

/-- Evaluating the object scanner on the concrete payload body with any
suffix: one member whose key is `questions` and whose value is the
two-string array, with the suffix untouched. -/
theorem parseF_members_payload (f : Nat) (a : GoStr) :
    parseF (f + 5) (PMode.members []) (gs "\"questions\":[\"A\",\"B\"]\x7d" ++ a) =
      some (GoJson.obj
        [(gs "questions", GoJson.arr [GoJson.str (gs "A"), GoJson.str (gs "B")])], a) := rfl

/-- The questions regex cannot match at a position whose first character
is not an opening brace. -/
theorem matchQuestionsAt_nonbrace (c : Char) (s : GoStr) (h : c ≠ '\x7b') :
    matchQuestionsAt (c :: s) = none := by
  unfold matchQuestionsAt
  split
  · simp_all
  · rfl

/-- The questions regex matches the concrete payload (with any suffix)
over exactly its 23 characters. -/
theorem matchQuestionsAt_payload (a : GoStr) :
    matchQuestionsAt (payloadAB ++ a) = some 23 := rfl

/-- Leftmost search: with no opening brace before it, the embedded
payload is the match found. -/
theorem findQuestionsMatch_payload (b a : GoStr) (hb : '\x7b' ∉ b) :
    findQuestionsMatch (b ++ payloadAB ++ a) = some payloadAB := by
  induction b with
  | nil =>
    show findQuestionsMatch (payloadAB ++ a) = some payloadAB
    rw [show payloadAB ++ a = '\x7b' :: (gs "\"questions\":[\"A\",\"B\"]\x7d" ++ a) from rfl]
    unfold findQuestionsMatch
    rw [show ('\x7b' :: (gs "\"questions\":[\"A\",\"B\"]\x7d" ++ a)) =
          payloadAB ++ a from rfl,
        matchQuestionsAt_payload]
    rw [show (23 : Nat) = payloadAB.length from rfl]
    dsimp only
    rw [List.take_left]
  | cons c b' ih =>
    have hc : c ≠ '\x7b' := fun hcc => hb (hcc ▸ List.mem_cons_self c b')
    have hb' : '\x7b' ∉ b' := fun hm => hb (List.mem_cons_of_mem c hm)
    show findQuestionsMatch (c :: (b' ++ payloadAB ++ a)) = some payloadAB
    unfold findQuestionsMatch
    rw [matchQuestionsAt_nonbrace c _ hc]
    exact ih hb'

/-- Element mode only ever produces an array value. -/
theorem parseF_elems_arr (fuel : Nat) :
    ∀ (acc : List GoJson) (s : GoStr) (v : GoJson) (rest : GoStr),
      parseF fuel (PMode.elems acc) s = some (v, rest) →
      ∃ vs, v = GoJson.arr vs := by
  induction fuel with
  | zero =>
    intro acc s v rest h
    simp [parseF] at h
  | succ f ih =>
    intro acc s v rest h
    simp only [parseF] at h
    cases hv : parseF f PMode.value s with
    | none => rw [hv] at h; simp at h
    | some p =>
      rw [hv] at h
      obtain ⟨v1, r1⟩ := p
      dsimp only at h
      cases hw : skipWs r1 with
      | nil => rw [hw] at h; simp at h
      | cons c2 r2 =>
        rw [hw] at h
        dsimp only at h
        by_cases hc : c2 = ','
        · rw [if_pos hc] at h
          exact ih _ _ _ _ h
        · rw [if_neg hc] at h
          by_cases hc2 : c2 = ']'
          · rw [if_pos hc2] at h
            simp only [Option.some.injEq, Prod.mk.injEq] at h
            exact ⟨_, h.1.symm⟩
          · rw [if_neg hc2] at h
            simp at h

/-- Member mode only ever produces an object value. -/
theorem parseF_members_obj (fuel : Nat) :
    ∀ (acc : List (GoStr × GoJson)) (s : GoStr) (v : GoJson) (rest : GoStr),
      parseF fuel (PMode.members acc) s = some (v, rest) →
      ∃ fs, v = GoJson.obj fs := by
  induction fuel with
  | zero =>
    intro acc s v rest h
    simp [parseF] at h
  | succ f ih =>
    intro acc s v rest h
    simp only [parseF] at h
    cases hw : skipWs s with
    | nil => rw [hw] at h; simp at h
    | cons c k =>
      rw [hw] at h
      dsimp only at h
      by_cases hc : c = '"'
      · rw [if_pos hc] at h
        cases hps : parseStringRest k with
        | none => rw [hps] at h; simp at h
        | some p =>
          rw [hps] at h
          obtain ⟨key, r1⟩ := p
          dsimp only at h
          cases hw1 : skipWs r1 with
          | nil => rw [hw1] at h; simp at h
          | cons c2 r2 =>
            rw [hw1] at h
            dsimp only at h
            by_cases hc2 : c2 = ':'
            · rw [if_pos hc2] at h
              cases hv : parseF f PMode.value r2 with
              | none => rw [hv] at h; simp at h
              | some p2 =>
                rw [hv] at h
                obtain ⟨v1, r3⟩ := p2
                dsimp only at h
                cases hw3 : skipWs r3 with
                | nil => rw [hw3] at h; simp at h
                | cons c3 r4 =>
                  rw [hw3] at h
                  dsimp only at h
                  by_cases hc3 : c3 = ','
                  · rw [if_pos hc3] at h
                    exact ih _ _ _ _ h
                  · rw [if_neg hc3] at h
                    by_cases hc4 : c3 = '\x7d'
                    · rw [if_pos hc4] at h
                      simp only [Option.some.injEq, Prod.mk.injEq] at h
                      exact ⟨_, h.1.symm⟩
                    · rw [if_neg hc4] at h
                      simp at h
            · rw [if_neg hc2] at h
              simp at h
      · rw [if_neg hc] at h
        simp at h

/-- The shapes a top-level value can have: an object result means the
first non-whitespace character was an opening brace, and a null result
means it was the `null` literal (with the remainder immediately after
it). -/
theorem parseF_value_shape (fuel : Nat) (s : GoStr) (v : GoJson) (rest : GoStr)
    (h : parseF fuel PMode.value s = some (v, rest)) :
    ((∃ fields, v = GoJson.obj fields) → ∃ r, skipWs s = '\x7b' :: r) ∧
    (v = GoJson.null → skipWs s = 'n' :: 'u' :: 'l' :: 'l' :: rest) := by
  cases fuel with
  | zero => simp [parseF] at h
  | succ f =>
    simp only [parseF] at h
    cases hw : skipWs s with
    | nil => rw [hw] at h; simp at h
    | cons c r =>
      rw [hw] at h
      dsimp only at h
      by_cases hq : c = '"'
      · rw [if_pos hq] at h
        cases hps : parseStringRest r with
        | none => rw [hps] at h; simp at h
        | some p =>
          rw [hps] at h
          simp only [Option.map_some', Option.some.injEq, Prod.mk.injEq] at h
          constructor
          · rintro ⟨fields, hf⟩
            rw [← h.1] at hf
            simp at hf
          · intro hn
            rw [← h.1] at hn
            simp at hn
      · rw [if_neg hq] at h
        by_cases hbr : c = '\x7b'
        · refine ⟨fun _ => ⟨r, by rw [hbr]⟩, ?_⟩
          intro hn
          rw [if_pos hbr] at h
          subst hn
          cases hw2 : skipWs r with
          | nil =>
            rw [hw2] at h
            obtain ⟨fs, hfs⟩ := parseF_members_obj f [] r GoJson.null rest h
            simp at hfs
          | cons c2 r2 =>
            rw [hw2] at h
            dsimp only at h
            by_cases hc2 : c2 = '\x7d'
            · rw [if_pos hc2] at h
              simp at h
            · rw [if_neg hc2] at h
              obtain ⟨fs, hfs⟩ := parseF_members_obj f [] r GoJson.null rest h
              simp at hfs
        · rw [if_neg hbr] at h
          by_cases hbk : c = '['
          · rw [if_pos hbk] at h
            have harr : ∃ vs, v = GoJson.arr vs := by
              cases hw2 : skipWs r with
              | nil =>
                rw [hw2] at h
                exact parseF_elems_arr f [] r v rest h
              | cons c2 r2 =>
                rw [hw2] at h
                dsimp only at h
                by_cases hc2 : c2 = ']'
                · rw [if_pos hc2] at h
                  simp only [Option.some.injEq, Prod.mk.injEq] at h
                  exact ⟨_, h.1.symm⟩
                · rw [if_neg hc2] at h
                  exact parseF_elems_arr f [] r v rest h
            obtain ⟨vs, hvs⟩ := harr
            subst hvs
            exact ⟨by rintro ⟨fields, hf⟩; simp at hf, by intro hn; simp at hn⟩
          · rw [if_neg hbk] at h
            by_cases ht : c = 't'
            · rw [if_pos ht] at h
              split at h
              · simp only [Option.some.injEq, Prod.mk.injEq] at h
                obtain ⟨hv, hr⟩ := h
                constructor
                · rintro ⟨fields, hf⟩
                  rw [← hv] at hf
                  simp at hf
                · intro hn
                  rw [← hv] at hn
                  simp at hn
              · simp at h
            · rw [if_neg ht] at h
              by_cases hf2 : c = 'f'
              · rw [if_pos hf2] at h
                split at h
                · simp only [Option.some.injEq, Prod.mk.injEq] at h
                  obtain ⟨hv, hr⟩ := h
                  constructor
                  · rintro ⟨fields, hf⟩
                    rw [← hv] at hf
                    simp at hf
                  · intro hn
                    rw [← hv] at hn
                    simp at hn
                · simp at h
              · rw [if_neg hf2] at h
                by_cases hn2 : c = 'n'
                · rw [if_pos hn2] at h
                  refine ⟨?_, ?_⟩
                  · rintro ⟨fields, hf⟩
                    subst hf
                    split at h
                    · simp at h
                    · simp at h
                  · intro hnull
                    subst hnull
                    split at h
                    · simp only [Option.some.injEq, Prod.mk.injEq] at h
                      rw [hn2, h.2]
                    · simp at h
                · rw [if_neg hn2] at h
                  by_cases hnum : c = '-' ∨ c.isDigit
                  · rw [if_pos hnum] at h
                    cases hpn : parseNumber (c :: r) with
                    | none => rw [hpn] at h; simp at h
                    | some r2 =>
                      rw [hpn] at h
                      simp only [Option.map_some', Option.some.injEq, Prod.mk.injEq] at h
                      constructor
                      · rintro ⟨fields, hf⟩
                        rw [← h.1] at hf
                        simp at hf
                      · intro hnl
                        rw [← h.1] at hnl
                        simp at hnl
                  · rw [if_neg hnum] at h
                    simp at h

/-- Unmarshalling the payload with only whitespace before it: success
with the two questions exactly when nothing but whitespace follows,
otherwise the trailing-data error. -/
theorem unmarshal_ws_payload (b a : GoStr) (hb : ∀ c ∈ b, jsonWs c = true) :
    unmarshalQuestions (b ++ payloadAB ++ a) =
      if skipWs a = [] then some [gs "A", gs "B"] else none := by
  have hskip : skipWs (b ++ payloadAB ++ a) =
      '\x7b' :: (gs "\"questions\":[\"A\",\"B\"]\x7d" ++ a) := by
    rw [List.append_assoc, skipWs_append_allWs b _ hb]
    rw [show payloadAB ++ a = '\x7b' :: (gs "\"questions\":[\"A\",\"B\"]\x7d" ++ a) from rfl]
    exact skipWs_cons_nonws _ _ (by decide)
  have hskip2 : skipWs (gs "\"questions\":[\"A\",\"B\"]\x7d" ++ a) =
      '"' :: (gs "questions\":[\"A\",\"B\"]\x7d" ++ a) := by
    rw [show gs "\"questions\":[\"A\",\"B\"]\x7d" ++ a =
        '"' :: (gs "questions\":[\"A\",\"B\"]\x7d" ++ a) from rfl]
    exact skipWs_cons_nonws _ _ (by decide)
  have hlen : (b ++ payloadAB ++ a).length = (b.length + a.length + 18) + 5 := by
    simp only [List.length_append]
    rw [show payloadAB.length = 23 from rfl]
    omega
  unfold unmarshalQuestions parseValueF
  simp only [parseF]
  rw [hskip]
  dsimp only
  rw [if_neg (by decide), if_pos (by decide), hskip2]
  dsimp only
  rw [if_neg (by decide), hlen, parseF_members_payload]
  dsimp only
  by_cases ha : skipWs a = []
  · rw [if_pos ha, if_pos ha]
    rfl
  · rw [if_neg ha, if_neg ha]

/-- Unmarshalling with a non-whitespace, non-brace character before the
payload always errors: the value is neither a top-level object nor a
lone `null`. -/
theorem unmarshal_nonws_none (b a : GoStr) (hbrace : '\x7b' ∉ b)
    (hnw : ¬ ∀ c ∈ b, jsonWs c = true) :
    unmarshalQuestions (b ++ payloadAB ++ a) = none := by
  have hne : skipWs b ≠ [] := by
    intro h0
    exact hnw (List.dropWhile_eq_nil_iff.mp h0)
  obtain ⟨c, t, hbt⟩ : ∃ c t, skipWs b = c :: t := by
    cases h : skipWs b with
    | nil => exact absurd h hne
    | cons c t => exact ⟨c, t, rfl⟩
  obtain ⟨hcws, hcb⟩ := skipWs_decomp b c t hbt
  have hcbrace : c ≠ '\x7b' := fun hcc => hbrace (hcc ▸ hcb)
  have hskip : skipWs (b ++ payloadAB ++ a) = c :: (t ++ (payloadAB ++ a)) := by
    rw [List.append_assoc, skipWs_append_of_ne b _ hne, hbt]
    rfl
  unfold unmarshalQuestions parseValueF
  cases hres : parseF ((b ++ payloadAB ++ a).length + 1) PMode.value
      (b ++ payloadAB ++ a) with
  | none => rfl
  | some p =>
    obtain ⟨v, rest⟩ := p
    have hshape := parseF_value_shape _ _ _ _ hres
    cases v with
    | str s2 => rfl
    | num => rfl
    | boolean bv => rfl
    | arr vs => rfl
    | obj fields =>
      obtain ⟨r, hr⟩ := hshape.1 ⟨fields, rfl⟩
      rw [hskip] at hr
      injection hr with h1 _
      exact absurd h1 hcbrace
    | null =>
      have hn := hshape.2 rfl
      rw [hskip] at hn
      injection hn with h1 h2
      have hrest : '\x7b' ∈ rest := by
        cases t with
        | nil =>
          rw [show payloadAB ++ a =
              '\x7b' :: (gs "\"questions\":[\"A\",\"B\"]\x7d" ++ a) from rfl] at h2
          simp at h2
        | cons x1 t1 =>
          cases t1 with
          | nil =>
            rw [show payloadAB ++ a =
                '\x7b' :: (gs "\"questions\":[\"A\",\"B\"]\x7d" ++ a) from rfl] at h2
            simp at h2
          | cons x2 t2 =>
            cases t2 with
            | nil =>
              rw [show payloadAB ++ a =
                  '\x7b' :: (gs "\"questions\":[\"A\",\"B\"]\x7d" ++ a) from rfl] at h2
              simp at h2
            | cons x3 t3 =>
              simp only [List.cons_append, List.cons.injEq] at h2
              obtain ⟨_, _, _, hrest⟩ := h2
              rw [← hrest]
              rw [show payloadAB ++ a =
                  '\x7b' :: (gs "\"questions\":[\"A\",\"B\"]\x7d" ++ a) from rfl]
              simp
      have hwsrest : skipWs rest ≠ [] := by
        intro h0
        have := List.dropWhile_eq_nil_iff.mp h0 _ hrest
        simp [jsonWs] at this
      dsimp only
      rw [if_neg hwsrest]

/-- Claim C4 (counterexample): the response
`\x7b"questions": [` followed by exactly the object
`\x7b"questions":["A","B"]\x7d` (and nothing after) contains that object
with surrounding prose, yet extraction yields no questions at all: the
regex matches from the earlier brace, the matched substring is not
valid JSON, and the whole response is not valid JSON either. -/
theorem extractQuestions_roundtrip_counterexample :
    extractQuestions (gs "\x7b\"questions\": [" ++ payloadAB ++ ([] : GoStr)) =
      ([], false) ∧
    extractQuestions (gs "\x7b\"questions\": [" ++ payloadAB ++ ([] : GoStr)) ≠
      ([⟨gs "A", []⟩, ⟨gs "B", []⟩], true) :=
  ⟨by decide, by decide⟩

/-- Claim C4 (amended): for every response of the form
`before ++ \x7b"questions":["A","B"]\x7d ++ after` in which the text
before the payload contains no opening brace, extraction yields exactly
the two ClarifyingQuestions A and B, in order, each with an empty
answer.  (Prose containing an opening brace can start an earlier,
possibly malformed, regex match and defeat the extraction, as the
counterexample shows.) -/
theorem extractQuestions_roundtrip_amended
    (before after : GoStr) (hb : '\x7b' ∉ before) :
    extractQuestions (before ++ payloadAB ++ after) =
      ([⟨gs "A", []⟩, ⟨gs "B", []⟩], true) := by
  have hfall : extractQuestionsFallback (before ++ payloadAB ++ after) =
      ([⟨gs "A", []⟩, ⟨gs "B", []⟩], true) := by
    unfold extractQuestionsFallback
    rw [findQuestionsMatch_payload before after hb]
    rfl
  unfold extractQuestions
  by_cases hws : ∀ c ∈ before, jsonWs c = true
  · rw [unmarshal_ws_payload before after hws]
    by_cases ha : skipWs after = []
    · rw [if_pos ha]
      rfl
    · rw [if_neg ha]
      exact hfall
  · rw [unmarshal_nonws_none before after hb hws]
    exact hfall

/-- Claim C4 witness: ordinary prose around the payload round-trips to
the two questions. -/
theorem extractQuestions_roundtrip_amended_witness :
    extractQuestions (gs "Some prose. " ++ payloadAB ++ gs " More prose.") =
      ([⟨gs "A", []⟩, ⟨gs "B", []⟩], true) :=
  extractQuestions_roundtrip_amended (gs "Some prose. ") (gs " More prose.") (by decide)
